import Mathlib

/-!
# audio-relay — verification of the streaming relay core

A shallow embedding, in Lean, of the parts of the `loque/audio-relay`
repository that the specification talks about:

* `src/config.ts` — the zod schema `audioConfigSchema` and
  `validateAudioConfig` (defaults, range checks, strict key handling,
  derived format token);
* `src/audio-player.ts` — `bytesToMs`, the `AudioPlayer` constructor's
  write path (`startedAt` / `queuedMs` accounting), the public
  `write`, and the drain-poll `pollDrained` (200 ms interval, 150 ms
  safety margin);
* the backpressure behaviour of the internal `Writable` → `aplay.stdin`
  chain (chunk ordering across `drain` events);
* `src/audio-relay-server.ts` — the recorder hub
  (`handleRecConnection`, `startRecorder`, `stopRecorder`, broadcast
  loop);
* the per-connection `/play` handler of the websocket relay server
  (`handlePlayConnection`: pending/active state machine, close frames,
  the `player!.write` non-null assertion).

JavaScript numbers are modelled as `ℚ` (every value the claims touch is
exactly representable, so float rounding is irrelevant here);
`performance.now()` timestamps are `ℚ` milliseconds since process start.
Fallible operations return `Except String _` — `zod.parse` throws,
so a `.error` result means the constructor aborts before `spawn`.
-/

namespace AudioRelay

/-- `endian` enum of `audioConfigSchema` (`z.enum(["LE", "BE"])`). -/
inductive Endian where
  | LE
  | BE
deriving DecidableEq, Repr

/-- `encoding` enum of `audioConfigSchema` (`z.enum(["S", "U"])`). -/
inductive Encoding where
  | S
  | U
deriving DecidableEq, Repr

/-- The string a member of the `endian` enum stands for. -/
def Endian.str : Endian → String
  | .LE => "LE"
  | .BE => "BE"

/-- The string a member of the `encoding` enum stands for. -/
def Encoding.str : Encoding → String
  | .S => "S"
  | .U => "U"

/-- Input to `validateAudioConfig` (`AudioConfigInput`, `z.input` of the
schema): a JSON object in which every declared field is optional
(`none` = key absent, so the zod `default` applies).  `extraKeys` lists
the keys of the object that are not declared in the schema; `.strict()`
rejects the object when it is non-empty.  Numeric JSON values are `ℚ`. -/
structure AudioConfigInput where
  channels : Option ℚ := none
  sampleRate : Option ℚ := none
  bitDepth : Option ℚ := none
  endian : Option Endian := none
  encoding : Option Encoding := none
  device : Option String := none
  extraKeys : List String := []
deriving DecidableEq, Repr

/-- Output of `validateAudioConfig` (`AudioConfig`): the fully populated
record plus the derived `format` token.  `bitDepth` is kept as a `ℕ`
because the zod pipeline (`number → string → enum {"16","24","32"} →
number`) only ever lets the exact values 16, 24, 32 through. -/
structure AudioConfig where
  channels : ℚ
  sampleRate : ℚ
  bitDepth : ℕ
  endian : Endian
  encoding : Encoding
  device : String
  format : String
deriving DecidableEq, Repr

/-- `config.ts`, `validateAudioConfig`: run `audioConfigSchema.parse`
(defaults, `.strict()` unknown-key rejection, per-field range checks —
`channels: z.number().min(1).max(8)`, `sampleRate:
z.number().min(8000).max(192000)`, `bitDepth` piped through the string
enum `{"16","24","32"}`; note the schema imposes **no** integrality
constraint on `channels` or `sampleRate`), then attach the derived
token `` `${encoding}${bitDepth}_${endian}` ``.  `zod.parse` throwing is
an `.error` result, which carries no partial output (validation is
atomic). -/
def validateAudioConfig (input : AudioConfigInput) : Except String AudioConfig :=
  if input.extraKeys ≠ [] then
    .error "Unrecognized key(s) in object"
  else
    let channels := input.channels.getD 1
    if ¬ (1 ≤ channels ∧ channels ≤ 8) then
      .error "channels out of range"
    else
      let sampleRate := input.sampleRate.getD 16000
      if ¬ (8000 ≤ sampleRate ∧ sampleRate ≤ 192000) then
        .error "sampleRate out of range"
      else
        let bitQ := input.bitDepth.getD 16
        if bitQ = 16 ∨ bitQ = 24 ∨ bitQ = 32 then
          let bitDepth : ℕ := if bitQ = 16 then 16 else if bitQ = 24 then 24 else 32
          let e := input.endian.getD .LE
          let enc := input.encoding.getD .S
          .ok { channels := channels
                sampleRate := sampleRate
                bitDepth := bitDepth
                endian := e
                encoding := enc
                device := input.device.getD "default"
                format := enc.str ++ toString bitDepth ++ "_" ++ e.str }
        else
          .error "bitDepth not one of 16, 24, 32"

/-- `audio-player.ts`, `AudioPlayer` constructor: `validateAudioConfig`
is called (line 44) before `spawn("aplay", …)` (line 57), so the list of
subprocesses spawned by constructing a player on `input` is empty when
validation throws and a singleton otherwise. -/
def playerSpawns (input : AudioConfigInput) : List AudioConfig :=
  match validateAudioConfig input with
  | .ok c => [c]
  | .error _ => []

/-- `audio-recorder.ts`, `AudioRecorder` constructor: `validateAudioConfig`
is called (line 19) before `spawn("arecord", …)` (line 36), so the list
of subprocesses spawned by constructing a recorder on `input` is empty
when validation throws and a singleton otherwise. -/
def recorderSpawns (input : AudioConfigInput) : List AudioConfig :=
  match validateAudioConfig input with
  | .ok c => [c]
  | .error _ => []

/-! ## `audio-player.ts` — timing accounting and drain poll -/

/-- `audio-player.ts`, `bytesToMs`: milliseconds of audio a PCM byte
length occupies — `bytes / (bitDepth/8 * channels) / sampleRate * 1000`. -/
def bytesToMs (bytes : ℚ) (sampleRate channels bitDepth : ℚ) : ℚ :=
  let bytesPerSample := bitDepth / 8
  let totalSamples := bytes / (bytesPerSample * channels)
  totalSamples / sampleRate * 1000

/-- `AudioPlayer.state`: `"pending" | "active" | "closing" | "closed"`. -/
inductive PlayerLifecycle where
  | pending
  | active
  | closing
  | closed
deriving DecidableEq, Repr

/-- The timing-relevant fields of an `AudioPlayer`: `queuedMs` (running
total of submitted audio duration), `startedAt` (`performance.now()` of
the first `_write`, `0` until then) and `state`. -/
structure PlayerClock where
  queuedMs : ℚ
  startedAt : ℚ
  state : PlayerLifecycle
deriving DecidableEq, Repr

/-- The fields as the `AudioPlayer` constructor leaves them: nothing
queued, `startedAt = 0` (no write yet) and `state = "active"` (set on
the constructor's last line). -/
def PlayerClock.init : PlayerClock :=
  { queuedMs := 0, startedAt := 0, state := .active }

/-- `audio-player.ts` lines 98–120, the internal `Writable`'s `write`
callback, executed once per chunk that reaches `_write`: set
`startedAt` to `performance.now()` (`now`) if it is still `0`, and add
`bytesToMs(chunk.length, fmt)` to `queuedMs`.  (`sr ch bd` are the
validated `sampleRate`, `channels`, `bitDepth` captured by the
constructor's closure.) -/
def writeChunk (sr ch bd : ℚ) (now bytes : ℚ) (s : PlayerClock) : PlayerClock :=
  { s with
    startedAt := if s.startedAt = 0 then now else s.startedAt
    queuedMs := s.queuedMs + bytesToMs bytes sr ch bd }

/-- `audio-player.ts` lines 132–145, the public `AudioPlayer.write`:
returns `false` (dropping the chunk) unless `state === "active"`;
otherwise forwards the chunk to the stream (modelled by `writeChunk`,
the stream's `_write`) and returns `true` — the boolean that
`this.stream.write(chunk)` itself returns is discarded. -/
def playerWrite (sr ch bd : ℚ) (now bytes : ℚ) (s : PlayerClock) :
    PlayerClock × Bool :=
  if s.state = .active then (writeChunk sr ch bd now bytes s, true)
  else (s, false)

/-- The hard-coded safety margin of `pollDrained` (`const safety = 150`). -/
def safetyMarginMs : ℚ := 150

/-- The hard-coded poll interval (`setInterval(…, 200)`). -/
def pollIntervalMs : ℚ := 200

/-- `audio-player.ts` lines 155–168, `pollDrained`, run on every
interval tick at wall-clock time `now`: no-op unless
`state === "active"`; computes `elapsed = now - startedAt` and, when
`elapsed >= queuedMs + 150`, calls `terminate()`, whose first effect is
`state = "closing"` (cleanup then proceeds to `"closed"`). -/
def pollDrained (now : ℚ) (s : PlayerClock) : PlayerClock :=
  if s.state ≠ .active then s
  else if now - s.startedAt ≥ s.queuedMs + safetyMarginMs then
    { s with state := .closing }
  else s

/-- `setInterval(() => this.pollDrained(), 200)` started at construction
time `tc`: the state after the first `k` ticks, tick `j` running at
wall-clock time `tc + 200 * j` (`j = 1, …, k`). -/
def runPolls (tc : ℚ) (s : PlayerClock) : ℕ → PlayerClock
  | 0 => s
  | k + 1 => pollDrained (tc + pollIntervalMs * (k + 1)) (runPolls tc s k)

/-! ## `audio-player.ts` — the `Writable` → `aplay.stdin` chain

Backpressure model of the constructor's stream (lines 98–120).  Chunks
submitted to `this.stream` are queued by Node's `Writable` machinery and
handed to `_write` one at a time; `_write` passes the chunk to
`this.aplay.stdin.write`, which always ingests it (the boolean only
reports whether the high-water mark was exceeded).  On a `false` return
the completion callback is parked on `stdin`'s `"drain"` event, which
stalls the queue; the `"drain"` event releases it.  The environment's
backpressure answers are a function `accept : ℕ → Bool` giving the
boolean returned by the `n`-th `stdin.write` call. -/

/-- State of the internal stream chain: `sink` is the sequence of chunks
`aplay.stdin` has received (in order), `queue` the chunks buffered in
the `Writable` whose `_write` has not run yet, `waiting` whether a
`_write` callback is parked on `"drain"`. -/
structure PipeState where
  sink : List ℕ
  queue : List ℕ
  waiting : Bool
deriving DecidableEq, Repr

/-- The chain with nothing submitted. -/
def PipeState.idle : PipeState := { sink := [], queue := [], waiting := false }

/-- Run the `Writable` queue: while no callback is parked on `"drain"`,
pop the head chunk, `stdin.write` it (it always reaches `sink`), and
park on `"drain"` when that write returned `false`.  `fuel` bounds the
number of steps (callers pass the queue length). -/
def flushPipe (accept : ℕ → Bool) : ℕ → PipeState → PipeState
  | 0, s => s
  | fuel + 1, s =>
    if s.waiting then s
    else
      match s.queue with
      | [] => s
      | c :: rest =>
        flushPipe accept fuel
          { sink := s.sink ++ [c], queue := rest, waiting := ! accept s.sink.length }

/-- `this.stream.write(chunk)`: enqueue the chunk, then let the
`Writable` machinery run (it makes progress only when no callback is
parked on `"drain"`). -/
def pipeSubmit (accept : ℕ → Bool) (s : PipeState) (c : ℕ) : PipeState :=
  flushPipe accept (s.queue.length + 1) { s with queue := s.queue ++ [c] }

/-- `aplay.stdin`'s `"drain"` event: the parked callback (if any) runs,
so the `Writable` queue resumes. -/
def pipeDrain (accept : ℕ → Bool) (s : PipeState) : PipeState :=
  if s.waiting then flushPipe accept s.queue.length { s with waiting := false }
  else s

/-- An external event on the chain: a chunk submitted through the
stream, or `stdin` emitting `"drain"`. -/
inductive PipeEvent where
  | submit (c : ℕ)
  | drain
deriving DecidableEq, Repr

/-- Process one event. -/
def pipeStep (accept : ℕ → Bool) (s : PipeState) : PipeEvent → PipeState
  | .submit c => pipeSubmit accept s c
  | .drain => pipeDrain accept s

/-- Process a sequence of events from a state. -/
def pipeRun (accept : ℕ → Bool) (s : PipeState) (evs : List PipeEvent) : PipeState :=
  evs.foldl (pipeStep accept) s

/-- The chunks submitted by a sequence of events, in submission order. -/
def submittedChunks (evs : List PipeEvent) : List ℕ :=
  evs.filterMap fun
    | .submit c => some c
    | .drain => none

/-- The public `AudioPlayer.write` (lines 132–145) seen from the stream
chain: return `false` without touching the stream unless
`state === "active"`; otherwise call `this.stream.write(chunk)`
(= `pipeSubmit`) and return `true` — the backpressure boolean that
`stream.write` (and, below it, `aplay.stdin.write`) reports is
discarded. -/
def playerSubmit (accept : ℕ → Bool) (st : PlayerLifecycle) (p : PipeState) (c : ℕ) :
    PipeState × Bool :=
  if st = .active then (pipeSubmit accept p c, true) else (p, false)

/-! ## `audio-relay-server.ts` — recorder hub and broadcast -/

/-- The recorder-related state of `AudioRelayServer`
(`src/audio-relay-server.ts`): the `recorderClients` set (connections
as naturals), the `audioRecorder` slot (tagged with which spawn created
it), and a running count of recorder subprocesses spawned so far. -/
structure RelayState where
  recorderClients : Finset ℕ
  audioRecorder : Option ℕ
  spawnCount : ℕ
deriving DecidableEq

/-- The server as constructed: no recorder clients, no recorder. -/
def RelayState.initial : RelayState :=
  { recorderClients := ∅, audioRecorder := none, spawnCount := 0 }

/-- `startRecorder` (lines 80–115): `if (this.audioRecorder) return;`
otherwise create the recorder (one subprocess spawn) and keep it. -/
def startRecorder (s : RelayState) : RelayState :=
  if s.audioRecorder.isSome then s
  else { s with audioRecorder := some s.spawnCount, spawnCount := s.spawnCount + 1 }

/-- `stopRecorder` (lines 117–126): stop and drop the recorder only when
one exists and `recorderClients.size === 0`. -/
def stopRecorder (s : RelayState) : RelayState :=
  if s.audioRecorder.isSome ∧ s.recorderClients = ∅ then
    { s with audioRecorder := none }
  else s

/-- `handleRecConnection` (lines 61–78), connection open part:
`recorderClients.add(ws)` then `startRecorder()`. -/
def handleRecConnect (ws : ℕ) (s : RelayState) : RelayState :=
  startRecorder { s with recorderClients := insert ws s.recorderClients }

/-- `handleRecConnection`, the `ws.on("close", …)` handler:
`recorderClients.delete(ws)` then `stopRecorder()`. -/
def handleRecClose (ws : ℕ) (s : RelayState) : RelayState :=
  stopRecorder { s with recorderClients := s.recorderClients.erase ws }

/-- The hub invariant claimed by the spec: a capture subprocess exists
if and only if the subscriber set is non-empty. -/
def hubInvariant (s : RelayState) : Prop :=
  s.audioRecorder.isSome ↔ s.recorderClients ≠ ∅

/-- `ws.readyState` values of the `ws` library. -/
inductive ReadyState where
  | CONNECTING
  | OPEN
  | CLOSING
  | CLOSED
deriving DecidableEq, Repr

/-- A subscriber connection as the broadcast loop sees it: an identity
and its current `readyState`. -/
structure Conn where
  id : ℕ
  readyState : ReadyState
deriving DecidableEq, Repr

/-- `audio-relay-server.ts` lines 96–102, the `audioStream.on("data")`
broadcast loop: for each `ws` of `recorderClients` (iterated as a
list), `ws.send(chunk)` exactly when `ws.readyState === WebSocket.OPEN`.
The result is the list of performed sends, each pairing the recipient
with the byte chunk it was sent. -/
def broadcastChunk (chunk : List ℕ) (clients : List Conn) : List (Conn × List ℕ) :=
  clients.filterMap fun ws =>
    if ws.readyState = .OPEN then some (ws, chunk) else none

/-! ## The per-connection `/play` websocket handler

`AudioRelayServer.handlePlayConnection` of the per-connection relay
server (the source file whose name is unknown; its `/play` handler keeps
`state : "pending" | "active" | "closed"` and `player : AudioPlayer |
undefined` per connection). -/

/-- A websocket message as the `ws.on("message", (data, isBinary))`
handler sees it.  A text frame carries the result of
`JSON.parse(data.toString()) || {}`: `text none` is a frame whose body
is not parseable JSON (`JSON.parse` throws), `text (some cfg)` a frame
that yields the configuration object `cfg` (a falsy parse result is
already coalesced to the empty object by `|| {}`).  A binary frame
carries its payload. -/
inductive PlayMsg where
  | binary (chunk : ℕ)
  | text (parsed : Option AudioConfigInput)
deriving DecidableEq

/-- The handler's per-connection `state` variable. -/
inductive PlayConnState where
  | pending
  | active
  | closed
deriving DecidableEq, Repr

/-- Observable per-connection session state of `handlePlayConnection`:
the `state` variable, the `player` variable (`some` holds the config of
the constructed `AudioPlayer`), every `ws.close(code, reason)` the
handler has issued, and whether a handler invocation threw a runtime
`TypeError` (dereferencing `player!` while `player` is `undefined`). -/
structure PlaySession where
  state : PlayConnState
  player : Option AudioConfig
  closes : List (ℕ × String)
  crashed : Bool
deriving DecidableEq

/-- A freshly accepted `/play` connection: `state = "pending"`,
`player = undefined`, no close frame sent. -/
def PlaySession.fresh : PlaySession :=
  { state := .pending, player := none, closes := [], crashed := false }

/-- One invocation of the `ws.on("message", …)` handler of
`handlePlayConnection`:

* `pending`, binary frame: log a warning and `return` — the state is
  unchanged (no close frame, no player);
* `pending`, text frame: `try { msg = JSON.parse(…) || {}; player = new
  AudioPlayer(msg); … } catch { ws.close(1007, …) }` — constructing the
  player throws exactly when `validateAudioConfig` rejects `msg`; the
  line `state = "active"` sits **after** the `try/catch`, so the state
  becomes `"active"` even when construction failed;
* `active`, text frame: warn and ignore;
* `active`, binary frame: `player!.write(data)` — a `TypeError` (model:
  `crashed := true`) when `player` is `undefined`, otherwise a write
  whose boolean result is ignored;
* `closed`: the `else if` chain matches no branch. -/
def playStep (s : PlaySession) : PlayMsg → PlaySession
  | .binary _ =>
    match s.state with
    | .pending => s
    | .active =>
      match s.player with
      | none => { s with crashed := true }
      | some _ => s
    | .closed => s
  | .text parsed =>
    match s.state with
    | .pending =>
      match parsed with
      | none =>
        { s with
          closes := s.closes ++ [(1007, "error creating audio player")]
          state := .active }
      | some cfg =>
        match validateAudioConfig cfg with
        | .error _ =>
          { s with
            closes := s.closes ++ [(1007, "error creating audio player")]
            state := .active }
        | .ok c => { s with player := some c, state := .active }
    | .active => s
    | .closed => s

/-- Process a sequence of inbound messages on one `/play` connection. -/
def playRun (s : PlaySession) (msgs : List PlayMsg) : PlaySession :=
  msgs.foldl playStep s

/-- The render subprocesses spawned while `handlePlayConnection`
processes one message: `new AudioPlayer(msg)` spawns iff validation
passes (see `playerSpawns`); every other branch spawns nothing. -/
def playStepSpawns (s : PlaySession) : PlayMsg → List AudioConfig
  | .binary _ => []
  | .text parsed =>
    match s.state with
    | .pending =>
      match parsed with
      | none => []
      | some cfg => playerSpawns cfg
    | .active => []
    | .closed => []

/-! ## Helper lemmas -/

/-- Any in-range input (each present field within its declared range, no
unknown keys) validates successfully; absent fields take the schema
defaults and the derived token is `encoding ++ bitDepth ++ "_" ++ endian`. -/
theorem validate_ok_inRange (input : AudioConfigInput)
    (hkeys : input.extraKeys = [])
    (hch : ∀ c ∈ input.channels, 1 ≤ c ∧ c ≤ 8)
    (hsr : ∀ r ∈ input.sampleRate, 8000 ≤ r ∧ r ≤ 192000)
    (hbd : ∀ b ∈ input.bitDepth, b = 16 ∨ b = 24 ∨ b = 32) :
    ∃ cfg, validateAudioConfig input = .ok cfg ∧
      cfg.channels = input.channels.getD 1 ∧
      cfg.sampleRate = input.sampleRate.getD 16000 ∧
      (cfg.bitDepth : ℚ) = input.bitDepth.getD 16 ∧
      cfg.endian = input.endian.getD .LE ∧
      cfg.encoding = input.encoding.getD .S ∧
      cfg.device = input.device.getD "default" ∧
      cfg.format = cfg.encoding.str ++ toString cfg.bitDepth ++ "_" ++ cfg.endian.str := by
  have hch' : 1 ≤ input.channels.getD 1 ∧ input.channels.getD 1 ≤ 8 := by
    cases h : input.channels with
    | none => norm_num
    | some c => simpa using hch c (by simp [h])
  have hsr' : 8000 ≤ input.sampleRate.getD 16000 ∧ input.sampleRate.getD 16000 ≤ 192000 := by
    cases h : input.sampleRate with
    | none => norm_num
    | some r => simpa using hsr r (by simp [h])
  have hbd' : input.bitDepth.getD 16 = 16 ∨ input.bitDepth.getD 16 = 24 ∨
      input.bitDepth.getD 16 = 32 := by
    cases h : input.bitDepth with
    | none => norm_num
    | some b => simpa using hbd b (by simp [h])
  unfold validateAudioConfig
  rcases hbd' with hb | hb | hb <;>
    simp [hkeys, hch', hsr', hb]

/-- The `writeChunk` step of the C1 scenario: one 32,000-byte chunk in
format 16 kHz / 1 channel / 16-bit queues exactly 1000 ms. -/
theorem writeChunk_scenario (tw : ℚ) :
    writeChunk 16000 1 16 tw 32000 PlayerClock.init =
      { queuedMs := 1000, startedAt := tw, state := .active } := by
  simp [writeChunk, bytesToMs, PlayerClock.init]
  norm_num

/-- `pollDrained` on the post-write scenario state fires exactly when
`now - tw ≥ 1150` (= 1000 ms queued + 150 ms margin). -/
theorem pollDrained_fire_iff (now tw : ℚ) :
    pollDrained now { queuedMs := 1000, startedAt := tw, state := .active } =
      (if now - tw ≥ 1150 then
        ({ queuedMs := 1000, startedAt := tw, state := .closing } : PlayerClock)
      else { queuedMs := 1000, startedAt := tw, state := .active }) := by
  simp only [pollDrained, safetyMarginMs]
  norm_num

/-- No tick up to `k` fires while the `k`-th tick's elapsed time is
still below 1150 ms. -/
theorem runPolls_scenario_no_fire (tc tw : ℚ) : ∀ k : ℕ,
    (tc + pollIntervalMs * k) - tw < 1150 →
    runPolls tc { queuedMs := 1000, startedAt := tw, state := .active } k =
      { queuedMs := 1000, startedAt := tw, state := .active } := by
  intro k
  induction k with
  | zero => intro _; rfl
  | succ k ih =>
    intro hk
    have hk' : (tc + pollIntervalMs * k) - tw < 1150 := by
      unfold pollIntervalMs at hk ⊢
      push_cast at hk ⊢
      linarith
    rw [runPolls, ih hk', pollDrained_fire_iff, if_neg]
    unfold pollIntervalMs at hk ⊢
    push_cast at hk ⊢
    linarith

/-- The first firing tick of the C1 scenario: it exists, every earlier
tick leaves the state untouched, and its elapsed-since-write time lies
in `[1150, 1350)`. -/
theorem runPolls_scenario_fires (tc tw : ℚ) (h0 : tc ≤ tw) :
    ∃ K : ℕ, 1 ≤ K ∧
      (∀ j : ℕ, j < K →
        runPolls tc { queuedMs := 1000, startedAt := tw, state := .active } j =
          { queuedMs := 1000, startedAt := tw, state := .active }) ∧
      (runPolls tc { queuedMs := 1000, startedAt := tw, state := .active } K).state = .closing ∧
      1150 ≤ (tc + pollIntervalMs * K) - tw ∧
      (tc + pollIntervalMs * K) - tw < 1350 := by
  set x : ℚ := (tw + 1150 - tc) / 200 with hx
  have hxpos : 0 < x := by
    rw [hx]
    have : (0 : ℚ) < tw + 1150 - tc := by linarith
    positivity
  have hK1 : 1 ≤ ⌈x⌉₊ := Nat.one_le_iff_ne_zero.mpr (by positivity)
  have hle : x ≤ (⌈x⌉₊ : ℚ) := Nat.le_ceil x
  have hup : (⌈x⌉₊ : ℚ) < x + 1 := Nat.ceil_lt_add_one (le_of_lt hxpos)
  have hx200 : x * 200 = tw + 1150 - tc := by
    rw [hx]; field_simp
  have hfire : 1150 ≤ (tc + pollIntervalMs * ⌈x⌉₊) - tw := by
    have : x * 200 ≤ (⌈x⌉₊ : ℚ) * 200 := by linarith
    rw [hx200] at this
    unfold pollIntervalMs
    linarith
  have hno : ∀ j : ℕ, j < ⌈x⌉₊ →
      runPolls tc { queuedMs := 1000, startedAt := tw, state := .active } j =
        { queuedMs := 1000, startedAt := tw, state := .active } := by
    intro j hj
    apply runPolls_scenario_no_fire
    have hjx : (j : ℚ) < x := (Nat.lt_ceil).mp hj
    have : (j : ℚ) * 200 < x * 200 := by linarith
    rw [hx200] at this
    unfold pollIntervalMs
    linarith
  refine ⟨⌈x⌉₊, hK1, hno, ?_, hfire, ?_⟩
  · have hcast : ((⌈x⌉₊ - 1 : ℕ) : ℚ) + 1 = (⌈x⌉₊ : ℚ) := by
      push_cast [Nat.cast_sub hK1]
      ring
    have hfire' : tc + pollIntervalMs * (((⌈x⌉₊ - 1 : ℕ) : ℚ) + 1) - tw ≥ 1150 := by
      rw [hcast]; exact hfire
    have hsplit : ⌈x⌉₊ = (⌈x⌉₊ - 1) + 1 := by omega
    rw [hsplit, runPolls, hno _ (by omega), pollDrained_fire_iff, if_pos hfire']
  · have : (⌈x⌉₊ : ℚ) * 200 < (x + 1) * 200 := by linarith
    have h2 : (x + 1) * 200 = tw + 1150 - tc + 200 := by
      rw [add_mul, hx200]; ring
    unfold pollIntervalMs
    linarith

/-- On the never-written state, a poll at any time past the 150 ms
margin terminates the session (its elapsed time is the raw process
clock, `startedAt` being `0`). -/
theorem pollDrained_init_fires (now : ℚ) (h : 150 < now) :
    pollDrained now PlayerClock.init =
      { queuedMs := 0, startedAt := 0, state := .closing } := by
  unfold pollDrained
  rw [if_neg (by simp [PlayerClock.init]),
    if_pos (by simp [PlayerClock.init, safetyMarginMs]; linarith)]
  rfl

/-- Unfolding equation for `runPolls` at a successor tick count. -/
theorem runPolls_succ (tc : ℚ) (s : PlayerClock) (k : ℕ) :
    runPolls tc s (k + 1) =
      pollDrained (tc + pollIntervalMs * ((k : ℚ) + 1)) (runPolls tc s k) :=
  rfl

/-- `pollDrained` never touches `startedAt` or `queuedMs`. -/
theorem pollDrained_fields (now : ℚ) (s : PlayerClock) :
    (pollDrained now s).startedAt = s.startedAt ∧
    (pollDrained now s).queuedMs = s.queuedMs := by
  unfold pollDrained
  split_ifs <;> exact ⟨rfl, rfl⟩

/-- Poll ticks never touch `startedAt` or `queuedMs`. -/
theorem runPolls_fields (tc : ℚ) (s : PlayerClock) : ∀ k : ℕ,
    (runPolls tc s k).startedAt = s.startedAt ∧
    (runPolls tc s k).queuedMs = s.queuedMs := by
  intro k
  induction k with
  | zero => exact ⟨rfl, rfl⟩
  | succ k ih =>
    rw [runPolls_succ]
    exact ⟨(pollDrained_fields _ _).1.trans ih.1, (pollDrained_fields _ _).2.trans ih.2⟩

/-- `flushPipe` moves chunks from the queue to the sink: their
concatenation is preserved. -/
theorem flushPipe_concat (accept : ℕ → Bool) (fuel : ℕ) : ∀ s : PipeState,
    (flushPipe accept fuel s).sink ++ (flushPipe accept fuel s).queue =
      s.sink ++ s.queue := by
  induction fuel with
  | zero => intro s; rfl
  | succ n ih =>
    intro s
    unfold flushPipe
    by_cases hw : s.waiting
    · simp [hw]
    · cases hq : s.queue with
      | nil => simp [hw, hq]
      | cons c rest =>
        simp only [hw, hq, Bool.false_eq_true, if_false]
        rw [ih]
        simp

/-- One pipe event extends `sink ++ queue` by exactly the chunks it
submits. -/
theorem pipeStep_concat (accept : ℕ → Bool) (s : PipeState) (e : PipeEvent) :
    (pipeStep accept s e).sink ++ (pipeStep accept s e).queue =
      s.sink ++ s.queue ++ submittedChunks [e] := by
  cases e with
  | submit c =>
    show (flushPipe accept _ _).sink ++ (flushPipe accept _ _).queue = _
    rw [flushPipe_concat]
    simp [submittedChunks]
  | drain =>
    simp only [pipeStep, pipeDrain, submittedChunks]
    by_cases hw : s.waiting
    · simp only [hw, if_true]
      rw [flushPipe_concat]
      simp
    · simp [hw]

/-- Over any event sequence, `sink ++ queue` equals the initial contents
plus all submitted chunks, in order: nothing lost, nothing reordered. -/
theorem pipeRun_concat (accept : ℕ → Bool) : ∀ (evs : List PipeEvent) (s : PipeState),
    (pipeRun accept s evs).sink ++ (pipeRun accept s evs).queue =
      s.sink ++ s.queue ++ submittedChunks evs := by
  intro evs
  induction evs with
  | nil => intro s; simp [pipeRun, submittedChunks]
  | cons e rest ih =>
    intro s
    have hstep := pipeStep_concat accept s e
    show (pipeRun accept (pipeStep accept s e) rest).sink ++
        (pipeRun accept (pipeStep accept s e) rest).queue = _
    rw [ih, hstep]
    cases e <;> simp [submittedChunks]

/-- The hub invariant holds in the initial server state. -/
theorem hubInvariant_initial : hubInvariant RelayState.initial := by
  simp [hubInvariant, RelayState.initial]

/-- A `/rec` connection preserves the hub invariant. -/
theorem hubInvariant_connect (s : RelayState) (ws : ℕ) :
    hubInvariant (handleRecConnect ws s) := by
  unfold handleRecConnect startRecorder hubInvariant
  by_cases hr : s.audioRecorder.isSome <;> simp [hr, Finset.insert_ne_empty]

/-- A `/rec` close preserves the hub invariant. -/
theorem hubInvariant_close (s : RelayState) (ws : ℕ) (h : hubInvariant s) :
    hubInvariant (handleRecClose ws s) := by
  unfold handleRecClose stopRecorder hubInvariant
  unfold hubInvariant at h
  by_cases hr : s.audioRecorder.isSome
  · by_cases he : s.recorderClients.erase ws = ∅ <;> simp [hr, he]
  · have h0 : s.recorderClients = ∅ := by
      by_contra hne
      exact hr (h.mpr hne)
    simp [hr, h0, Finset.erase_empty]

/-- The subscribe-A, subscribe-B, close-A, close-B scenario: one spawn,
the recorder survives the first close and is dropped by the second. -/
theorem hub_scenario (a b : ℕ) (hab : a ≠ b) :
    (handleRecConnect b (handleRecConnect a RelayState.initial)).spawnCount = 1 ∧
    (handleRecConnect b (handleRecConnect a RelayState.initial)).audioRecorder = some 0 ∧
    (handleRecClose a (handleRecConnect b (handleRecConnect a RelayState.initial))).audioRecorder
      = some 0 ∧
    (handleRecClose b (handleRecClose a
        (handleRecConnect b (handleRecConnect a RelayState.initial)))).audioRecorder = none := by
  have h1 : handleRecConnect a RelayState.initial =
      { recorderClients := {a}, audioRecorder := some 0, spawnCount := 1 } := by
    simp [handleRecConnect, startRecorder, RelayState.initial]
  have h2 : handleRecConnect b (handleRecConnect a RelayState.initial) =
      { recorderClients := insert b {a}, audioRecorder := some 0, spawnCount := 1 } := by
    rw [h1]
    simp [handleRecConnect, startRecorder]
  have herase : (insert b ({a} : Finset ℕ)).erase a = {b} := by
    ext x
    simp [Finset.mem_erase]
    omega
  have h3 : handleRecClose a (handleRecConnect b (handleRecConnect a RelayState.initial)) =
      { recorderClients := {b}, audioRecorder := some 0, spawnCount := 1 } := by
    rw [h2]
    simp [handleRecClose, stopRecorder, herase, Finset.singleton_ne_empty]
  have h4 : handleRecClose b (handleRecClose a
      (handleRecConnect b (handleRecConnect a RelayState.initial))) =
      { recorderClients := ∅, audioRecorder := none, spawnCount := 1 } := by
    rw [h3]
    simp [handleRecClose, stopRecorder, Finset.erase_singleton]
  exact ⟨by rw [h2], by rw [h2], by rw [h3], by rw [h4]⟩

/-! ## The claims -/

/-- C1, counterexample.  The claim is stated for every playback session
that "receives a single binary chunk of 32,000 bytes", with no timing
restriction — but if the chunk arrives after the first poll tick, the
write-less poll (`startedAt = 0`, so `elapsed` is the raw process
clock) has already terminated the session: constructed at process time
0, the session is `closing` at the first tick (time 200), and a chunk
written at time 300 is rejected (`write` returns `false`), leaving
`queuedMs = 0`, not the claimed 1000 ms. -/
theorem claim_C1_counterexample :
    (runPolls 0 PlayerClock.init 1).state = .closing ∧
    (playerWrite 16000 1 16 300 32000 (runPolls 0 PlayerClock.init 1)).2 = false ∧
    (playerWrite 16000 1 16 300 32000 (runPolls 0 PlayerClock.init 1)).1.queuedMs = 0 := by
  have h : runPolls 0 PlayerClock.init 1 =
      { queuedMs := 0, startedAt := 0, state := .closing } := by
    have h1 : runPolls 0 PlayerClock.init 1 =
        pollDrained (0 + pollIntervalMs * ((0 : ℚ) + 1)) PlayerClock.init := rfl
    rw [h1, pollDrained_init_fires]
    unfold pollIntervalMs
    norm_num
  rw [h]
  refine ⟨rfl, ?_, ?_⟩ <;> simp [playerWrite]

/-- C1, amended: **provided the 32,000-byte chunk is written while the
session is still active — i.e. before the first poll tick, within one
poll interval of construction** (`tc ≤ tw < tc + 200`), a playback
session configured 1 channel / 16 kHz / 16-bit queues exactly 1000 ms;
no poll whose elapsed time since the first write is below 1000 ms
leaves `active`; and some poll tick `K` — with every earlier tick
leaving the session active — moves it to `closing` at an elapsed time
in `[1150, 1350)` ms after the first write. -/
theorem claim_C1 (tc tw : ℚ) (h0 : tc ≤ tw) (_hw : tw < tc + pollIntervalMs) :
    (writeChunk 16000 1 16 tw 32000 PlayerClock.init).queuedMs = 1000 ∧
    (∀ k : ℕ, (tc + pollIntervalMs * k) - tw < 1000 →
      (runPolls tc (writeChunk 16000 1 16 tw 32000 PlayerClock.init) k).state = .active) ∧
    (∃ K : ℕ, 1 ≤ K ∧
      (∀ j : ℕ, j < K →
        (runPolls tc (writeChunk 16000 1 16 tw 32000 PlayerClock.init) j).state = .active) ∧
      (runPolls tc (writeChunk 16000 1 16 tw 32000 PlayerClock.init) K).state = .closing ∧
      1150 ≤ (tc + pollIntervalMs * K) - tw ∧
      (tc + pollIntervalMs * K) - tw < 1350) := by
  rw [writeChunk_scenario]
  refine ⟨rfl, ?_, ?_⟩
  · intro k hk
    rw [runPolls_scenario_no_fire tc tw k (by linarith)]
  · obtain ⟨K, hK1, hno, hclose, hlo, hhi⟩ := runPolls_scenario_fires tc tw h0
    exact ⟨K, hK1, fun j hj => by rw [hno j hj], hclose, hlo, hhi⟩

/-- C1, witness: the amended theorem applied at construction time 0 and
write time 100. -/
theorem claim_C1_witness :
    (writeChunk 16000 1 16 100 32000 PlayerClock.init).queuedMs = 1000 :=
  (claim_C1 0 100 (by norm_num) (by norm_num [pollIntervalMs])).1

/-- C2, counterexample.  The claim says `submit` "returns false exactly
when the underlying transport signals its buffer is full".  With a
transport that signals full on every write (`accept ≡ false`), an
active session's `write` of chunk 7 still returns `true` — the chunk
reaches `aplay.stdin` and the chain parks on `"drain"`
(`waiting = true`), yet the caller is told `true`: `AudioPlayer.write`
discards the stream's backpressure boolean. -/
theorem claim_C2_counterexample :
    playerSubmit (fun _ => false) .active PipeState.idle 7 =
      ({ sink := [7], queue := [], waiting := true }, true) := by
  decide

/-- C2, amended: `write` returns `false` exactly when the session is not
`active` (it returns `true` even when the transport signals
backpressure).  Backpressure is honoured inside the stream chain: over
any sequence of submits and drains the transport receives the submitted
chunks in submission order with none lost (`sink ++ queue` equals the
submission sequence), and while a callback is parked on `"drain"` a
further submit is only buffered — no chunk reaches the transport before
the drain notification. -/
theorem claim_C2 :
    (∀ (accept : ℕ → Bool) (st : PlayerLifecycle) (p : PipeState) (c : ℕ),
      (playerSubmit accept st p c).2 = true ↔ st = .active) ∧
    (∀ (accept : ℕ → Bool) (evs : List PipeEvent),
      (pipeRun accept PipeState.idle evs).sink ++ (pipeRun accept PipeState.idle evs).queue =
        submittedChunks evs) ∧
    (∀ (accept : ℕ → Bool) (s : PipeState) (c : ℕ), s.waiting = true →
      (pipeSubmit accept s c).sink = s.sink ∧
      (pipeSubmit accept s c).waiting = true ∧
      (pipeSubmit accept s c).queue = s.queue ++ [c]) := by
  refine ⟨?_, ?_, ?_⟩
  · intro accept st p c
    simp only [playerSubmit]
    split_ifs with h <;> simp [h]
  · intro accept evs
    have := pipeRun_concat accept evs PipeState.idle
    simpa [PipeState.idle] using this
  · intro accept s c h
    simp [pipeSubmit, flushPipe, h]

/-- C2, witness: a submit against a pipe already parked on `"drain"`
buffers the chunk without touching the sink. -/
theorem claim_C2_witness :
    (pipeSubmit (fun _ => true) ⟨[1], [2], true⟩ 3).sink = [1] ∧
    (pipeSubmit (fun _ => true) ⟨[1], [2], true⟩ 3).waiting = true ∧
    (pipeSubmit (fun _ => true) ⟨[1], [2], true⟩ 3).queue = [2] ++ [3] :=
  claim_C2.2.2 (fun _ => true) ⟨[1], [2], true⟩ 3 rfl

/-- C3: the recording hub's capture subprocess exists iff the subscriber
set is non-empty — true initially and preserved by every subscribe and
every close — and in the A-then-B scenario exactly one subprocess is
spawned, it survives A's departure while B remains, and the last
departure tears it down and drops the reference (`audioRecorder`
becomes `undefined`). -/
theorem claim_C3 :
    hubInvariant RelayState.initial ∧
    (∀ (s : RelayState) (ws : ℕ), hubInvariant s →
      hubInvariant (handleRecConnect ws s) ∧ hubInvariant (handleRecClose ws s)) ∧
    (∀ a b : ℕ, a ≠ b →
      (handleRecConnect b (handleRecConnect a RelayState.initial)).spawnCount = 1 ∧
      (handleRecConnect b (handleRecConnect a RelayState.initial)).audioRecorder = some 0 ∧
      (handleRecClose a (handleRecConnect b
          (handleRecConnect a RelayState.initial))).audioRecorder = some 0 ∧
      (handleRecClose b (handleRecClose a (handleRecConnect b
          (handleRecConnect a RelayState.initial)))).audioRecorder = none) :=
  ⟨hubInvariant_initial,
   fun s ws h => ⟨hubInvariant_connect s ws, hubInvariant_close s ws h⟩,
   hub_scenario⟩

/-- C3, witness: the invariant-preservation and scenario parts applied
to the initial state and connections 0 and 1. -/
theorem claim_C3_witness :
    hubInvariant (handleRecConnect 0 RelayState.initial) ∧
    (handleRecConnect 1 (handleRecConnect 0 RelayState.initial)).spawnCount = 1 :=
  ⟨(claim_C3.2.1 RelayState.initial 0 (by simp [hubInvariant, RelayState.initial])).1,
   (claim_C3.2.2 0 1 (by decide)).1⟩

/-- C4: a send performed by the broadcast loop pairs a subscriber with
the identical byte chunk, and happens exactly for the subscribers of the
set whose `readyState` is `OPEN`; whether a given subscriber receives
the chunk depends only on that subscriber's own state, never on the
other subscribers around it (fire-and-forget fan-out). -/
theorem claim_C4 :
    (∀ (chunk : List ℕ) (clients : List Conn) (ws : Conn) (c : List ℕ),
      (ws, c) ∈ broadcastChunk chunk clients ↔
        ws ∈ clients ∧ ws.readyState = .OPEN ∧ c = chunk) ∧
    (∀ (chunk : List ℕ) (pre post : List Conn) (ws : Conn), ws.readyState = .OPEN →
      (ws, chunk) ∈ broadcastChunk chunk (pre ++ ws :: post)) ∧
    (∀ (chunk : List ℕ) (pre post : List Conn) (ws : Conn), ws.readyState ≠ .OPEN →
      ∀ c, (ws, c) ∉ broadcastChunk chunk (pre ++ ws :: post)) := by
  have hmem : ∀ (chunk : List ℕ) (clients : List Conn) (ws : Conn) (c : List ℕ),
      (ws, c) ∈ broadcastChunk chunk clients ↔
        ws ∈ clients ∧ ws.readyState = .OPEN ∧ c = chunk := by
    intro chunk clients ws c
    simp only [broadcastChunk, List.mem_filterMap]
    constructor
    · rintro ⟨a, ha, hf⟩
      split_ifs at hf with h
      · simp only [Option.some.injEq, Prod.mk.injEq] at hf
        obtain ⟨rfl, rfl⟩ := hf
        exact ⟨ha, h, rfl⟩
    · rintro ⟨hmem, hopen, rfl⟩
      exact ⟨ws, hmem, by simp [hopen]⟩
  refine ⟨hmem, ?_, ?_⟩
  · intro chunk pre post ws h
    exact (hmem chunk _ ws chunk).mpr ⟨by simp, h, rfl⟩
  · intro chunk pre post ws h c hin
    exact h ((hmem chunk _ ws c).mp hin).2.1

/-- C4, witness: an `OPEN` subscriber receives the chunk; a `CLOSED` one
does not. -/
theorem claim_C4_witness :
    (Conn.mk 0 .OPEN, [5]) ∈ broadcastChunk [5] [Conn.mk 0 .OPEN] ∧
    (Conn.mk 1 .CLOSED, [5]) ∉ broadcastChunk [5] [Conn.mk 1 .CLOSED] :=
  ⟨claim_C4.2.1 [5] [] [] (Conn.mk 0 .OPEN) rfl,
   claim_C4.2.2 [5] [] [] (Conn.mk 1 .CLOSED) (by simp) [5]⟩

/-- C5: any input with channels 0 or 9, sampleRate 7999 or 192001,
bitDepth 17, or an extraneous key fails validation with an error that
carries no partial output, and neither the player nor the recorder
constructor spawns a subprocess on it (both validate before `spawn`). -/
theorem claim_C5 (input : AudioConfigInput)
    (h : input.channels = some 0 ∨ input.channels = some 9 ∨
         input.sampleRate = some 7999 ∨ input.sampleRate = some 192001 ∨
         input.bitDepth = some 17 ∨ input.extraKeys ≠ []) :
    (∃ e, validateAudioConfig input = .error e) ∧
    playerSpawns input = [] ∧ recorderSpawns input = [] := by
  have herr : ∃ e, validateAudioConfig input = .error e := by
    unfold validateAudioConfig
    rcases h with h | h | h | h | h | h <;> simp [h] <;> split_ifs <;> simp_all <;>
      norm_num at *
  refine ⟨herr, ?_, ?_⟩ <;>
    · obtain ⟨e, he⟩ := herr
      simp [playerSpawns, recorderSpawns, he]

/-- C5, witness: channels 0 spawns no player; bitDepth 17 spawns no
recorder. -/
theorem claim_C5_witness :
    playerSpawns { channels := some 0 } = [] ∧
    recorderSpawns { bitDepth := some 17 } = [] :=
  ⟨(claim_C5 { channels := some 0 } (Or.inl rfl)).2.1,
   (claim_C5 { bitDepth := some 17 }
      (Or.inr (Or.inr (Or.inr (Or.inr (Or.inl rfl)))))).2.2⟩

/-- C6: every input whose present fields are in range validates
successfully; absent fields get the defaults (1 channel, 16,000 Hz,
16-bit, signed, little-endian, device `"default"`); the derived token is
the concatenation `<encoding><bitDepth>_<endianness>`; and the
all-defaults input yields `S16_LE`. -/
theorem claim_C6 :
    (∀ input : AudioConfigInput, input.extraKeys = [] →
      (∀ c ∈ input.channels, 1 ≤ c ∧ c ≤ 8) →
      (∀ r ∈ input.sampleRate, 8000 ≤ r ∧ r ≤ 192000) →
      (∀ b ∈ input.bitDepth, b = 16 ∨ b = 24 ∨ b = 32) →
      ∃ cfg, validateAudioConfig input = .ok cfg ∧
        cfg.channels = input.channels.getD 1 ∧
        cfg.sampleRate = input.sampleRate.getD 16000 ∧
        (cfg.bitDepth : ℚ) = input.bitDepth.getD 16 ∧
        cfg.endian = input.endian.getD .LE ∧
        cfg.encoding = input.encoding.getD .S ∧
        cfg.device = input.device.getD "default" ∧
        cfg.format = cfg.encoding.str ++ toString cfg.bitDepth ++ "_" ++ cfg.endian.str) ∧
    validateAudioConfig {} =
      .ok { channels := 1, sampleRate := 16000, bitDepth := 16, endian := .LE,
            encoding := .S, device := "default", format := "S16_LE" } := by
  refine ⟨validate_ok_inRange, ?_⟩
  norm_num [validateAudioConfig]
  rfl

/-- C6, witness: the in-range input `{channels: 2}` validates. -/
theorem claim_C6_witness :
    (validateAudioConfig { channels := some 2 }).toOption.isSome = true := by
  obtain ⟨cfg, hok, -⟩ :=
    claim_C6.1 { channels := some 2 } rfl
      (by intro c hc; simp at hc; subst hc; norm_num)
      (by intro r hr; simp at hr)
      (by intro b hb; simp at hb)
  rw [hok]
  rfl

/-- C7, counterexample.  The claim says a binary first frame on `/play`
is "rejected with a protocol-violation close code": in the code the
pending-state binary branch only logs a warning and returns — no
`ws.close` is issued, the session stays `pending`.  (The
"no subprocess" half of the claim does hold.) -/
theorem claim_C7_counterexample :
    (playStep PlaySession.fresh (.binary 0)).closes = [] ∧
    (playStep PlaySession.fresh (.binary 0)).state = .pending ∧
    playStepSpawns PlaySession.fresh (.binary 0) = [] :=
  ⟨rfl, rfl, rfl⟩

/-- C7, amended: a binary first frame on `/play` is ignored with a
warning — the session state, player and close-frame list are all
unchanged (in particular no close frame is sent), and no subprocess is
spawned; the connection continues to await a configuration frame. -/
theorem claim_C7 : ∀ chunk : ℕ,
    playStep PlaySession.fresh (.binary chunk) = PlaySession.fresh ∧
    playStepSpawns PlaySession.fresh (.binary chunk) = [] :=
  fun _ => ⟨rfl, rfl⟩

/-- C9: a first `/play` frame whose text is unparseable JSON makes the
handler close the socket with code 1007 and **still** fall through to
`state = "active"` with `player` left `undefined`; the next binary
frame then evaluates `player!.write` on `undefined` — the non-null
assertion is invalid after a configuration error. -/
theorem claim_C9 :
    playStep PlaySession.fresh (.text none) =
      ⟨.active, none, [(1007, "error creating audio player")], false⟩ ∧
    playRun PlaySession.fresh [.text none, .binary 0] =
      ⟨.active, none, [(1007, "error creating audio player")], true⟩ :=
  ⟨rfl, rfl⟩

/-- C8, counterexample.  The claim says a non-integral `channels` within
`[1, 8]` fails validation: in the code `z.number().min(1).max(8)` has no
integrality constraint, so `channels = 1.5` (= 3/2, strictly between 1
and 2, hence non-integral) validates successfully. -/
theorem claim_C8_counterexample :
    validateAudioConfig { channels := some (3 / 2) } =
      .ok { channels := 3 / 2, sampleRate := 16000, bitDepth := 16, endian := .LE,
            encoding := .S, device := "default", format := "S16_LE" } ∧
    (1 : ℚ) < 3 / 2 ∧ (3 / 2 : ℚ) < 2 := by
  refine ⟨?_, by norm_num, by norm_num⟩
  norm_num [validateAudioConfig]
  rfl

/-- C8, amended: `channels` and `sampleRate` are validated only against
their ranges, with no integrality requirement — every pair of values
with `1 ≤ channels ≤ 8` and `8000 ≤ sampleRate ≤ 192000`, integral or
not, validates successfully and is passed through unchanged. -/
theorem claim_C8 (c r : ℚ) (hc1 : 1 ≤ c) (hc2 : c ≤ 8)
    (hr1 : 8000 ≤ r) (hr2 : r ≤ 192000) :
    ∃ cfg, validateAudioConfig { channels := some c, sampleRate := some r } = .ok cfg ∧
      cfg.channels = c ∧ cfg.sampleRate = r := by
  obtain ⟨cfg, hok, hch, hsr, -⟩ :=
    validate_ok_inRange { channels := some c, sampleRate := some r } rfl
      (by intro x hx; simp at hx; subst hx; exact ⟨hc1, hc2⟩)
      (by intro x hx; simp at hx; subst hx; exact ⟨hr1, hr2⟩)
      (by intro b hb; simp at hb)
  exact ⟨cfg, hok, by simpa using hch, by simpa using hsr⟩

/-- C8, witness: the amended theorem applied at the non-integral pair
`channels = 3/2`, `sampleRate = 16000 + 1/2`. -/
theorem claim_C8_witness :
    (validateAudioConfig
      { channels := some (3 / 2), sampleRate := some (16000 + 1 / 2) }).toOption.isSome
      = true := by
  obtain ⟨cfg, hok, -⟩ :=
    claim_C8 (3 / 2) (16000 + 1 / 2) (by norm_num) (by norm_num) (by norm_num) (by norm_num)
  rw [hok]
  rfl

/-- C10: on a session that never receives a write, poll ticks leave
`startedAt = 0` and `queuedMs = 0` forever, so a poll compares the raw
process clock against the 150 ms margin; any poll at a process time
past 150 ms terminates the session, and in particular the very first
tick (200 ms after a construction at any non-negative process time)
already moves it to `closing`. -/
theorem claim_C10 :
    (∀ (tc : ℚ) (k : ℕ), (runPolls tc PlayerClock.init k).startedAt = 0 ∧
      (runPolls tc PlayerClock.init k).queuedMs = 0) ∧
    (∀ now : ℚ, 150 < now → (pollDrained now PlayerClock.init).state = .closing) ∧
    (∀ tc : ℚ, 0 ≤ tc → (runPolls tc PlayerClock.init 1).state = .closing) := by
  refine ⟨fun tc k => runPolls_fields tc PlayerClock.init k, ?_, ?_⟩
  · intro now h
    rw [pollDrained_init_fires now h]
  · intro tc h
    have h1 : runPolls tc PlayerClock.init 1 =
        pollDrained (tc + pollIntervalMs * ((0 : ℚ) + 1)) PlayerClock.init := rfl
    rw [h1, pollDrained_init_fires]
    unfold pollIntervalMs
    linarith

/-- C10, witness: a write-less session constructed at process time 0 is
`closing` after its first poll tick. -/
theorem claim_C10_witness :
    (runPolls 0 PlayerClock.init 1).state = .closing :=
  claim_C10.2.2 0 (by norm_num)

end AudioRelay
